import Mathlib

/-!
Verification development for the btc_backtest data-acquisition core.

This file gives a shallow embedding, in Lean, of the acquisition pipeline of
the repository: the checksum-verified cache (`cache_manager.py`), the ledger
file format (`load_checksums`), the archive parser (`parser.py`), the retrying
fetcher (`fetcher.py`), the per-month/per-period orchestrator
(`data_loader.py`) and the symbol catalog resolver (`binance_client.py`).
Network responses, the filesystem and task completion are modelled as explicit
values, so every definition is executable and the stated properties can be
checked on concrete inputs.
-/

namespace BtcBacktest

/-- Raw file content, modelled as a list of byte values. The cache treats
content opaquely, so no structure beyond equality is needed. -/
abbrev Bytes := List Nat

/-- Association-list lookup by string key; models reading a Python dict
(`self._checksums.get(...)`) or probing the filesystem for a path. -/
def alookup {α : Type} : List (String × α) → String → Option α
  | [], _ => none
  | (k, v) :: rest, key => if k = key then some v else alookup rest key

/-- Association-list store with last-write-wins semantics; models Python dict
assignment `d[k] = v` (an existing key keeps its position in insertion order,
a new key is appended) and also an overwriting file write into a directory. -/
def insertLWW {α : Type} : List (String × α) → String → α → List (String × α)
  | [], k, v => [(k, v)]
  | (k', v') :: rest, k, v =>
    if k' = k then (k, v) :: rest else (k', v') :: insertLWW rest k v

/-! ### Ledger file format (`cache_manager.load_checksums` / `_save_checksums`)

The ledger file is modelled as its list of text lines. Python's `line.split()`
(split on runs of whitespace, discarding leading/trailing whitespace) is
embedded as `splitWs` over the line's characters. The source's
`line.strip()` followed by the blank-line skip is subsumed by the token-count
test: a blank or whitespace-only line yields zero tokens, and `split()` of a
stripped line equals `split()` of the raw line. -/

/-- Accumulator-based whitespace tokenizer: `acc` holds the reversed current
token. Mirrors the behaviour of Python's argumentless `str.split()`. -/
def splitWsAux : List Char → List Char → List (List Char)
  | [], acc => if acc.isEmpty then [] else [acc.reverse]
  | c :: cs, acc =>
    if c.isWhitespace then
      if acc.isEmpty then splitWsAux cs [] else acc.reverse :: splitWsAux cs []
    else splitWsAux cs (c :: acc)

/-- Splits a character list into maximal runs of non-whitespace characters. -/
def splitWs (l : List Char) : List (List Char) := splitWsAux l []

/-- Tokenizes one ledger line, as Python's `line.split()` does. -/
def splitTokens (s : String) : List String := (splitWs s.data).map String.mk

/-- Processes one line of the ledger file: lines with exactly two
whitespace-separated tokens contribute `checksums[parts[0]] = parts[1]`;
every other line (including blank lines) is ignored.
Embeds the loop body of `load_checksums` in `cache_manager.py`. -/
def processLine (checksums : List (String × String)) (line : String) :
    List (String × String) :=
  match splitTokens line with
  | [k, v] => insertLWW checksums k v
  | _ => checksums

/-- Loads the checksum ledger from the lines of the ledger file.
Embeds `load_checksums` in `cache_manager.py` (the existing-file case; a
missing file is the empty line list). -/
def load_checksums (lines : List String) : List (String × String) :=
  lines.foldl processLine []

/-- Serializes the in-memory ledger to the lines written by
`CacheManager._save_checksums`: one line `"{filename} {md5hash}"` per entry,
in dict insertion order. -/
def serializeChecksums (checksums : List (String × String)) : List String :=
  checksums.map fun p => p.1 ++ " " ++ p.2

/-! ### CacheManager (`cache_manager.py`) -/

/-- Python's `f"{month:02d}"`: decimal rendering left-padded to two digits. -/
def pad2 (n : Nat) : String :=
  if n < 10 then "0" ++ toString n else toString n

/-- The cache filename `f"{symbol}-{interval}-{year}-{month:02d}.zip"` built by
`CacheManager._get_local_zip_path` (its basename; the full path prefixes the
cache directory). -/
def localZipFilename (symbol interval : String) (year month : Nat) : String :=
  symbol ++ "-" ++ interval ++ "-" ++ toString year ++ "-" ++ pad2 month ++ ".zip"

/-- Primitive filesystem operations that `save_file` can emit, recorded as a
trace so that the write discipline (direct write versus temp-file-plus-rename)
is observable in the model. -/
inductive FsOp : Type
  | writeFile (path : String) (content : Bytes)
  | writeTempFile (path : String) (content : Bytes)
  | renameFile (src dst : String)
  | writeLedgerFile (lines : List String)
deriving DecidableEq

/-- State of one `CacheManager` together with the filesystem it owns:
`disk` maps basenames inside `cacheDir` to file content (the filesystem seen
through `os.path.exists`/`open`), `checksums` is the in-memory ledger dict. -/
structure CacheState : Type where
  cacheDir : String
  checksumsFile : String
  checksums : List (String × String)
  disk : List (String × Bytes)
deriving DecidableEq

/-- Embeds `CacheManager.get_cached_file`, parameterized by the hash function
`md5h` (the model of `hashlib.md5(...).hexdigest()`, an external primitive):
return the on-disk bytes only when the file exists and the ledger holds a
truthy entry equal to the recomputed digest, else `none`. The Python guard
`if stored_md5 and stored_md5 == local_md5` makes a missing entry or the empty
string a miss. This function never raises. -/
def get_cached_file (md5h : Bytes → String) (st : CacheState)
    (symbol interval : String) (year month : Nat) : Option Bytes :=
  let filename := localZipFilename symbol interval year month
  match alookup st.disk filename with
  | none => none
  | some content =>
    let localMd5 := md5h content
    match alookup st.checksums filename with
    | none => none
    | some stored => if stored ≠ "" ∧ stored = localMd5 then some content else none

/-- Embeds `CacheManager.save_file`: write the content to the final path with a
plain `open(local_path, "wb")` write, update the in-memory ledger, then flush
the whole ledger file. Returns the new state together with the trace of
filesystem operations performed, in order. -/
def save_file (md5h : Bytes → String) (st : CacheState)
    (symbol interval : String) (year month : Nat) (content : Bytes) :
    CacheState × List FsOp :=
  let filename := localZipFilename symbol interval year month
  let newDisk := insertLWW st.disk filename content
  let md5hash := md5h content
  let newChecksums := insertLWW st.checksums filename md5hash
  ({ st with disk := newDisk, checksums := newChecksums },
   [FsOp.writeFile (st.cacheDir ++ "/" ++ filename) content,
    FsOp.writeLedgerFile (serializeChecksums newChecksums)])

/-- Test-harness operation (not part of the source): an external actor replaces
the on-disk bytes of one cached file, leaving the ledger untouched. Used to
state the corruption-detection property. -/
def corruptDisk (st : CacheState) (filename : String) (newContent : Bytes) :
    CacheState :=
  { st with disk := insertLWW st.disk filename newContent }

/-! ### ArchiveParser (`parser.py`)

The parser's input is modelled at the level of the distinctions
`parse_kline_zip` itself makes on the raw bytes: the literal marker string
`b"404_NOT_FOUND"` (which is not a well-formed ZIP container), a well-formed
ZIP container with its ordered entry list, or bytes that `zipfile.ZipFile`
rejects. CSV cells are modelled as integers: the claims under study concern
only row ordering (by the first column) and emptiness, never cell arithmetic. -/

/-- One entry of a ZIP archive: its name in the archive directory and the rows
of the contained headerless CSV table. -/
structure ZipEntry : Type where
  name : String
  rows : List (List Int)
deriving DecidableEq

/-- The parser-relevant shape of a fetched byte string. -/
inductive ZipInput : Type
  | notFoundMarker : ZipInput
  | zip (entries : List ZipEntry) : ZipInput
  | invalid : ZipInput
deriving DecidableEq

/-- Errors `parse_kline_zip` can raise: `zipfile.BadZipFile` on an unreadable
container, or the pandas error raised when the table does not have the twelve
expected columns. -/
inductive ParseError : Type
  | badZip : ParseError
  | columnMismatch : ParseError
deriving DecidableEq

/-- One kline row: the twelve CSV cells in vendor order; cell 0 is open_time
in epoch milliseconds. -/
abbrev Row := List Int

/-- The open_time cell of a row (column 0). -/
def openTime (r : Row) : Int := r.headD 0

/-- Final step of `parse_kline_zip`: `df.set_index("open_time")` followed by
`df.sort_index()` — sort rows ascending by open_time. Embedded with insertion
sort; the claims under study do not depend on the tie order of duplicate
timestamps. -/
def sortRowsByOpenTime (rows : List Row) : List Row :=
  List.insertionSort (fun r s => openTime r ≤ openTime s) rows

/-- Embeds `parse_kline_zip`: the marker parses to an empty dataset; an
unreadable container raises; an empty archive returns an empty dataset; else
only the first entry is read, its table must have twelve columns per row, and
the rows are returned sorted ascending by open_time. -/
def parse_kline_zip : ZipInput → Except ParseError (List Row)
  | ZipInput.notFoundMarker => Except.ok []
  | ZipInput.invalid => Except.error ParseError.badZip
  | ZipInput.zip entries =>
    match entries with
    | [] => Except.ok []
    | e :: _ =>
      if e.rows.all (fun r => r.length == 12) then
        Except.ok (sortRowsByOpenTime e.rows)
      else Except.error ParseError.columnMismatch

/-! ### ArchiveFetcher (`fetcher.py`) -/

/-- Outcome of one HTTP attempt against the archive endpoint: a response with
a status code and a body, or a transport failure (`httpx.RequestError`). -/
inductive HttpResult : Type
  | response (status : Nat) (body : ZipInput)
  | transportError
deriving DecidableEq

/-- One attempt of `BinanceFetcher._fetch_url_with_retry`: a transport error
raises (retryable); a 404 returns the literal marker `b"404_NOT_FOUND"`; any
other 4xx/5xx status makes `raise_for_status` raise `HTTPStatusError`
(retryable); otherwise the response body is returned. -/
def fetchAttempt : HttpResult → Except Unit ZipInput
  | HttpResult.transportError => Except.error ()
  | HttpResult.response status body =>
    if status == 404 then Except.ok ZipInput.notFoundMarker
    else if 400 ≤ status ∧ status < 600 then Except.error ()
    else Except.ok body

/-- Result of the whole retrying fetch: the content, or the exception that
escapes after the retry budget is exhausted (an `httpx.HTTPError`). -/
inductive FetchOutcome : Type
  | ok (content : ZipInput)
  | error
deriving DecidableEq

/-- The tenacity retry loop with `stop_after_attempt`: `env i` is the outcome
of attempt number `i` (0-based); `fuel` is the remaining attempt budget. The
pair returned is the final outcome and the number of attempts performed. -/
def fetchLoop (env : Nat → HttpResult) : Nat → Nat → FetchOutcome × Nat
  | i, 0 => (FetchOutcome.error, i)
  | i, fuel + 1 =>
    match fetchAttempt (env i) with
    | Except.ok c => (FetchOutcome.ok c, i + 1)
    | Except.error _ =>
      if fuel = 0 then (FetchOutcome.error, i + 1) else fetchLoop env (i + 1) fuel

/-- Embeds `_fetch_url_with_retry` under `@retry(stop=stop_after_attempt(5))`:
up to five attempts, the exception of the fifth failure propagating. -/
def fetchWithRetry (env : Nat → HttpResult) : FetchOutcome × Nat :=
  fetchLoop env 0 5

/-! ### AcquisitionOrchestrator (`data_loader.py`) -/

/-- Environment of one month-task of `load_data_for_period`: the cache lookup
result for that month (`None` or hit content) and the fetch outcome that the
network would produce for it. Parsing works on `ZipInput` directly, matching
`parse_kline_zip(cached_bytes)` in the source. -/
abbrev MonthEnv := Nat × Nat → Option ZipInput × FetchOutcome

/-- Exceptions that can escape one month task of the orchestrator: the
`tenacity.RetryError` raised when the fetch's retry budget is exhausted
(`@retry` without `reraise=True` wraps the last failure in `RetryError`, which
is not an `httpx.HTTPError`, so the `except httpx.HTTPError` clause in
`download_monthly_klines` does not catch it), or a `ParseError` raised by
`parse_kline_zip` (likewise uncaught there). -/
inductive MonthError : Type
  | retryError : MonthError
  | parseError (e : ParseError) : MonthError
deriving DecidableEq

/-- Lifts a parser result into the month-task error type: a `ParseError`
escapes `download_monthly_klines` unchanged, since only `httpx.HTTPError` is
caught there. -/
def liftParse : Except ParseError (List Row) → Except MonthError (List Row)
  | Except.ok d => Except.ok d
  | Except.error e => Except.error (MonthError.parseError e)

/-- Embeds `BinanceDataLoader.download_monthly_klines` as a function of the
cache answer and the fetch outcome for the month. Returns the dataframe
result and the content written to the cache, if any. The 404 marker yields an
empty dataframe with no cache write; a genuine body is saved to the cache and
then parsed. An exhausted-retry fetch failure surfaces as `RetryError`: the
`except httpx.HTTPError` clause (whose intent is to downgrade the failure to
an empty month) does not match that type, so the exception propagates out of
the month task. -/
def download_monthly_klines (cached : Option ZipInput) (fetched : FetchOutcome) :
    Except MonthError (List Row) × Option ZipInput :=
  match cached with
  | some c => (liftParse (parse_kline_zip c), none)
  | none =>
    match fetched with
    | FetchOutcome.error => (Except.error MonthError.retryError, none)
    | FetchOutcome.ok content =>
      if content = ZipInput.notFoundMarker then (Except.ok [], none)
      else (liftParse (parse_kline_zip content), some content)

/-- The dataframe result of one month-task under a given environment. -/
def monthResult (env : MonthEnv) (ym : Nat × Nat) : Except MonthError (List Row) :=
  (download_monthly_klines (env ym).1 (env ym).2).1

/-- The month-advance step of the `while` loop in `load_data_for_period`:
December rolls over to January of the next year. -/
def advanceMonth : Nat × Nat → Nat × Nat
  | (y, 12) => (y + 1, 1)
  | (y, m) => (y, m + 1)

/-- Chronological index of a (year, month) pair; `datetime(y, m, 1)` order on
first-of-month dates coincides with this index for calendar months 1..12. -/
def monthIndex (year month : Nat) : Nat := year * 12 + (month - 1)

/-- Emits `n` consecutive months starting from `ym`. -/
def monthsLoop : Nat → Nat × Nat → List (Nat × Nat)
  | 0, _ => []
  | n + 1, ym => ym :: monthsLoop n (advanceMonth ym)

/-- The months enumerated by the `while current_date <= end_date` loop of
`load_data_for_period`, in chronological order: the loop body runs once per
month index from start to end inclusive, so exactly
`monthIndex end + 1 - monthIndex start` times (zero when the end precedes the
start, by truncated subtraction — the loop guard fails immediately). -/
def monthsInRange (sy sm ey em : Nat) : List (Nat × Nat) :=
  monthsLoop (monthIndex ey em + 1 - monthIndex sy sm) (sy, sm)

/-- Joins the month-task results in task-creation (chronological) order:
`[t.result() for t in tasks ...]`. A task that raised makes the
`asyncio.TaskGroup` cancel its siblings and re-raise, so the whole period
load aborts; modelled by the first error propagating. -/
def collectMonths (env : MonthEnv) :
    List (Nat × Nat) → Except MonthError (List (List Row))
  | [] => Except.ok []
  | ym :: rest =>
    match monthResult env ym with
    | Except.error e => Except.error e
    | Except.ok d =>
      match collectMonths env rest with
      | Except.error e => Except.error e
      | Except.ok ds => Except.ok (d :: ds)

/-- Embeds `BinanceDataLoader.load_data_for_period`: spawn one task per month
in range, gather results in creation order, drop empty dataframes, concatenate
the rest (`pd.concat`; the all-empty case returns the empty dataframe, which
equals the concatenation of no rows). -/
def load_data_for_period (sy sm ey em : Nat) (env : MonthEnv) :
    Except MonthError (List Row) :=
  match collectMonths env (monthsInRange sy sm ey em) with
  | Except.error e => Except.error e
  | Except.ok dfs => Except.ok ((dfs.filter fun d => !d.isEmpty).flatten)

/-- Strict ascent of a dataset by open_time: every row's open_time is strictly
below every later row's (the Dataset invariant stated by the spec). -/
abbrev StrictAscOpenTime (d : List Row) : Prop :=
  d.Pairwise fun r s => openTime r < openTime s

/-! ### SymbolCatalogResolver (`binance_client.py`)

String helpers are defined over character lists so that every definition
reduces in the kernel; symbols are ASCII, for which `asciiUpper` agrees with
Python's `str.upper()`. -/

/-- ASCII uppercase of one character. -/
def asciiUpper (c : Char) : Char :=
  if 'a' ≤ c ∧ c ≤ 'z' then Char.ofNat (c.toNat - 32) else c

/-- Tests whether `pre` is a prefix of `l`. -/
def isPrefixL : List Char → List Char → Bool
  | [], _ => true
  | _ :: _, [] => false
  | a :: asRest, b :: bs => a == b && isPrefixL asRest bs

/-- Tests whether `needle` occurs contiguously in `hay`
(Python's `x in s` on strings). -/
def containsSub (hay needle : List Char) : Bool :=
  match hay with
  | [] => needle.isEmpty
  | _ :: t => isPrefixL needle hay || containsSub t needle

/-- Tests whether `post` is a suffix of `s` (Python's `str.endswith`). -/
def endsWithB (s post : String) : Bool :=
  isPrefixL post.data.reverse s.data.reverse

/-- The exclusion test of `PairsFetcher._filter_symbols`:
`any(x in symbol.upper() for x in ["TEST", "STUB", "EVENT"])`. -/
def isExcludedSymbol (symbol : String) : Bool :=
  ["TEST", "STUB", "EVENT"].any fun x =>
    containsSub (symbol.data.map asciiUpper) x.data

/-- One entry of the 24h ticker snapshot, reduced to the two consumed fields.
The quote volume is modelled as a rational: the claims under study compare
finite decimal volumes, on which float and rational order agree. -/
structure TickerEntry : Type where
  symbol : String
  quoteVolume : ℚ
deriving DecidableEq

/-- A `(symbol, volume)` pair as built by `_filter_symbols`. -/
abbrev SymbolVolume := String × ℚ

/-- Embeds `PairsFetcher._filter_symbols`: keep entries whose symbol ends with
the quote asset and whose uppercase form contains none of TEST/STUB/EVENT,
paired with their quote volume, in snapshot order. -/
def filterSymbols (data : List TickerEntry) (quote : String) : List SymbolVolume :=
  data.filterMap fun item =>
    if !(endsWithB item.symbol quote) then none
    else if isExcludedSymbol item.symbol then none
    else some (item.symbol, item.quoteVolume)

/-- The descending-volume order used by `_sort_and_select_top`
(`key=lambda x: x[1], reverse=True`). -/
def volDesc (a b : SymbolVolume) : Prop := b.2 ≤ a.2

instance : DecidableRel volDesc := fun a b => inferInstanceAs (Decidable (b.2 ≤ a.2))

instance : IsTotal SymbolVolume volDesc := ⟨fun a b => le_total b.2 a.2⟩

instance : IsTrans SymbolVolume volDesc := ⟨fun _ _ _ h1 h2 => le_trans h2 h1⟩

/-- Embeds `PairsFetcher._sort_and_select_top`: stable sort by volume
descending (Python's `list.sort` is stable; insertion sort places an earlier
element before any tie, matching it), then the first `limit` entries. -/
def sortAndSelectTop (filtered : List SymbolVolume) (limit : Nat) :
    List SymbolVolume :=
  (List.insertionSort volDesc filtered).take limit

/-- Embeds `PairsFetcher.get_top_pairs` given a decoded ticker snapshot:
filter, sort-and-truncate, and project to the symbol names. -/
def get_top_pairs (data : List TickerEntry) (quote : String) (limit : Nat) :
    List String :=
  (sortAndSelectTop (filterSymbols data quote) limit).map Prod.fst

/-! ### Concrete fixtures for witnesses and counterexamples -/

/-- Concrete stand-in for the hash primitive in witnesses; any function works
for the parameterized theorems, this one is injective on lengths. -/
def md5ex : Bytes → String := fun b => "h" ++ toString b.length

/-- A fresh cache manager state over an empty directory and ledger. -/
def cacheEx : CacheState := ⟨"cache", "checksums.txt", [], []⟩

/-- A twelve-column kline row holding open_time `t`. -/
def rowT (t : Int) : Row := [t, 0, 0, 0, 0, 0, 0, 0, 0, 0, 0, 0]

/-- An archive whose single CSV entry holds the given rows. -/
def archiveOf (rows : List Row) : ZipInput := ZipInput.zip [⟨"data.csv", rows⟩]

/-- An HTTP environment whose every attempt is a transport failure. -/
def httpFail : Nat → HttpResult := fun _ => HttpResult.transportError

/-- An HTTP environment answering 404 on the first attempt. -/
def http404 : Nat → HttpResult := fun _ => HttpResult.response 404 ZipInput.invalid

/-- Month environment for the 3-month partial-failure scenario: January and
March fetch archives with timestamps 5 and 9, February's fetch fails every
retry; the cache is empty. -/
def envC1 : MonthEnv := fun ym =>
  if ym = (2025, 1) then (none, FetchOutcome.ok (archiveOf [rowT 5]))
  else if ym = (2025, 3) then (none, FetchOutcome.ok (archiveOf [rowT 9]))
  else (none, (fetchWithRetry httpFail).1)

/-- Month environment where January's cached archive holds timestamp 5 and
February's holds timestamp 3 — vendor data crossing month boundaries. -/
def envC2 : MonthEnv := fun ym =>
  if ym = (2025, 1) then (some (archiveOf [rowT 5]), FetchOutcome.error)
  else (some (archiveOf [rowT 3]), FetchOutcome.error)

/-- Month environment with well-separated cached months: January holds
timestamps 1 and 2, February holds timestamp 10. -/
def envAsc : MonthEnv := fun ym =>
  if ym = (2025, 1) then (some (archiveOf [rowT 1, rowT 2]), FetchOutcome.error)
  else (some (archiveOf [rowT 10]), FetchOutcome.error)

/-- Month environment where every month misses the cache and the fetch fails. -/
def envNone : MonthEnv := fun _ => (none, FetchOutcome.error)

/-- The spec's example ticker snapshot. -/
def exampleTicker : List TickerEntry :=
  [⟨"ETHBTC", 100⟩, ⟨"TESTBTC", 999⟩, ⟨"SOLBTC", 50⟩]

/-- A snapshot with a volume tie between ABTC and BBTC. -/
def tieTicker : List TickerEntry := [⟨"ABTC", 5⟩, ⟨"BBTC", 5⟩, ⟨"CBTC", 7⟩]

/-- A concrete two-entry ledger. -/
def ledgerEx : List (String × String) :=
  [("ETHBTC-1m-2025-01.zip", "d41d8cd98f00b204"), ("SOLBTC-1m-2025-01.zip", "9e107d9d372bb682")]

/-- Well-formedness of a ledger token: nonempty and free of whitespace, as the
real filenames and hex digests are. -/
def goodToken (t : String) : Bool :=
  !t.data.isEmpty && t.data.all fun c => !c.isWhitespace

/-! ### Helper lemmas -/

/-- Looking up the key just stored always yields the stored value. -/
theorem alookup_insertLWW_self {α : Type} (l : List (String × α)) (k : String) (v : α) :
    alookup (insertLWW l k v) k = some v := by
  induction l with
  | nil => simp [insertLWW, alookup]
  | cons p rest ih =>
    obtain ⟨k', v'⟩ := p
    by_cases h : k' = k
    · simp [insertLWW, h, alookup]
    · simp [insertLWW, h, alookup, ih]

/-- Storing a key absent from the list appends the binding at the end. -/
theorem insertLWW_append {α : Type} (l : List (String × α)) (k : String) (v : α)
    (h : ∀ p ∈ l, p.1 ≠ k) : insertLWW l k v = l ++ [(k, v)] := by
  induction l with
  | nil => rfl
  | cons p rest ih =>
    obtain ⟨k', v'⟩ := p
    have hk' : k' ≠ k := h (k', v') (by simp)
    simp [insertLWW, hk']
    exact ih fun q hq => h q (by simp [hq])

/-- Dropping the empty lists before concatenation changes nothing. -/
theorem flatten_filter_ne_nil {α : Type} (l : List (List α)) :
    (l.filter fun d => !d.isEmpty).flatten = l.flatten := by
  induction l with
  | nil => rfl
  | cons d rest ih =>
    by_cases hd : d.isEmpty
    · have hnil : d = [] := by simpa using hd
      subst hnil
      simpa [List.filter_cons] using ih
    · simp [List.filter_cons, hd, ih]

/-- Under an environment whose every attempt fails, the retry loop consumes
its whole budget and reports the final failure. -/
theorem fetchLoop_allFail (env : Nat → HttpResult)
    (h : ∀ j, fetchAttempt (env j) = Except.error ()) :
    ∀ fuel i, fetchLoop env i (fuel + 1) = (FetchOutcome.error, i + fuel + 1) := by
  intro fuel
  induction fuel with
  | zero => intro i; unfold fetchLoop; rw [h i]; simp
  | succ f ih =>
    intro i
    unfold fetchLoop
    rw [h i]
    have hf : f + 1 ≠ 0 := Nat.succ_ne_zero f
    simp only [hf, if_false]
    rw [ih (i + 1)]
    congr 1
    omega

/-- A fetch body that parses successfully makes the download path return the
parsed dataset, whether or not the body happens to be the marker. -/
theorem download_ok_of_parse (body : ZipInput) (d : List Row)
    (h : parse_kline_zip body = Except.ok d) :
    (download_monthly_klines none (FetchOutcome.ok body)).1 = Except.ok d := by
  by_cases hb : body = ZipInput.notFoundMarker
  · subst hb
    simp only [parse_kline_zip] at h
    injection h with h2
    subst h2
    rfl
  · simp [download_monthly_klines, hb, h, liftParse]

/-- Scanning a run of non-whitespace characters just accumulates them. -/
theorem splitWsAux_run (k : List Char) (hk : ∀ c ∈ k, c.isWhitespace = false) :
    ∀ rest acc, splitWsAux (k ++ rest) acc = splitWsAux rest (k.reverse ++ acc) := by
  induction k with
  | nil => intro rest acc; rfl
  | cons c k' ih =>
    intro rest acc
    have hc : c.isWhitespace = false := hk c (by simp)
    have hk' : ∀ x ∈ k', x.isWhitespace = false := fun x hx => hk x (by simp [hx])
    simp only [List.cons_append, splitWsAux, hc, Bool.false_eq_true, if_false]
    rw [show k'.append rest = k' ++ rest from rfl, ih hk' rest (c :: acc)]
    simp

/-- A nonempty whitespace-free character list is one single token. -/
theorem splitWs_single (k : List Char) (hne : k ≠ [])
    (hk : ∀ c ∈ k, c.isWhitespace = false) : splitWs k = [k] := by
  unfold splitWs
  have h0 := splitWsAux_run k hk [] []
  rw [List.append_nil] at h0
  rw [h0]
  unfold splitWsAux
  simp [hne]

/-- Tokenizing a serialized ledger line recovers its two tokens. -/
theorem splitTokens_pair (k v : String)
    (hk : goodToken k = true) (hv : goodToken v = true) :
    splitTokens (k ++ " " ++ v) = [k, v] := by
  have hkne : k.data ≠ [] := by
    simp only [goodToken, Bool.and_eq_true] at hk
    simpa using hk.1
  have hkw : ∀ c ∈ k.data, c.isWhitespace = false := by
    simp only [goodToken, Bool.and_eq_true, List.all_eq_true] at hk
    intro c hc
    simpa using hk.2 c hc
  have hvne : v.data ≠ [] := by
    simp only [goodToken, Bool.and_eq_true] at hv
    simpa using hv.1
  have hvw : ∀ c ∈ v.data, c.isWhitespace = false := by
    simp only [goodToken, Bool.and_eq_true, List.all_eq_true] at hv
    intro c hc
    simpa using hv.2 c hc
  have hdata : (k ++ " " ++ v).data = k.data ++ (' ' :: v.data) := by
    rw [String.data_append, String.data_append]
    simp [String.data]
  unfold splitTokens
  rw [hdata]
  unfold splitWs
  rw [splitWsAux_run k.data hkw (' ' :: v.data) []]
  rw [List.append_nil]
  have hsp : (' ' : Char).isWhitespace = true := by decide
  simp only [splitWsAux, hsp, if_true]
  have hkrev : k.data.reverse.isEmpty = false := by
    simp [List.isEmpty_iff, hkne]
  simp only [hkrev, Bool.false_eq_true, if_false]
  have hrest : splitWsAux v.data [] = [v.data] := splitWs_single v.data hvne hvw
  rw [hrest]
  simp [List.reverse_reverse]

/-- Folding the loader over the serialized ledger extends the accumulator by
exactly the entries, provided the keys are distinct, well formed, and fresh
with respect to the accumulator. -/
theorem foldl_processLine_serialize (m : List (String × String))
    (hgood : ∀ p ∈ m, goodToken p.1 = true ∧ goodToken p.2 = true)
    (hnd : (m.map Prod.fst).Nodup) :
    ∀ acc, (∀ p ∈ m, ∀ q ∈ acc, q.1 ≠ p.1) →
      List.foldl processLine acc (serializeChecksums m) = acc ++ m := by
  induction m with
  | nil => intro acc _; simp [serializeChecksums]
  | cons kv rest ih =>
    obtain ⟨k, v⟩ := kv
    intro acc hfresh
    have hg := hgood (k, v) (by simp)
    have hknotin : k ∉ rest.map Prod.fst ∧ (rest.map Prod.fst).Nodup := by
      simpa [List.nodup_cons] using hnd
    have hline : processLine acc (k ++ " " ++ v) = acc ++ [(k, v)] := by
      unfold processLine
      rw [splitTokens_pair k v hg.1 hg.2]
      exact insertLWW_append acc k v fun q hq => hfresh (k, v) (by simp) q hq
    have hser : serializeChecksums ((k, v) :: rest) =
        (k ++ " " ++ v) :: serializeChecksums rest := rfl
    rw [hser, List.foldl_cons, hline]
    have hgood' : ∀ p ∈ rest, goodToken p.1 = true ∧ goodToken p.2 = true :=
      fun p hp => hgood p (by simp [hp])
    have hfresh' : ∀ p ∈ rest, ∀ q ∈ acc ++ [(k, v)], q.1 ≠ p.1 := by
      intro p hp q hq
      rcases List.mem_append.mp hq with hqa | hqk
      · exact hfresh p (by simp [hp]) q hqa
      · have hq1 : q.1 = k := by
          have : q = (k, v) := by simpa using hqk
          rw [this]
        rw [hq1]
        intro hkp
        exact hknotin.1 (by rw [hkp]; exact List.mem_map_of_mem Prod.fst hp)
    rw [ih hgood' hknotin.2 (acc ++ [(k, v)]) hfresh']
    simp

/-! ### Claim theorems -/

/-- C3: for every key (symbol, interval, year, month) and every byte string
`b`, `save_file` of `b` followed by `get_cached_file` at the same key returns
exactly `b` (for any hash primitive whose digest of `b` is a nonempty string,
as every MD5 hex digest is). -/
theorem save_then_get_roundtrip (md5h : Bytes → String) (st : CacheState)
    (symbol interval : String) (year month : Nat) (b : Bytes)
    (h : md5h b ≠ "") :
    get_cached_file md5h (save_file md5h st symbol interval year month b).1
      symbol interval year month = some b := by
  unfold get_cached_file save_file
  simp [alookup_insertLWW_self, h]

/-- Witness for C3 at a concrete key, content and hash function. -/
theorem save_then_get_roundtrip_witness :
    md5ex [1, 2] ≠ "" ∧
    get_cached_file md5ex (save_file md5ex cacheEx "ETHBTC" "1m" 2025 1 [1, 2]).1
      "ETHBTC" "1m" 2025 1 = some [1, 2] :=
  ⟨by decide,
   save_then_get_roundtrip md5ex cacheEx "ETHBTC" "1m" 2025 1 [1, 2] (by decide)⟩

/-- C4: replacing the on-disk bytes of a saved key with content whose digest
differs from the ledger entry makes the next `get_cached_file` return `none` —
never the corrupted bytes, and without raising (the embedding is a total
function into `Option`). -/
theorem corrupted_cache_read_misses (md5h : Bytes → String) (st : CacheState)
    (symbol interval : String) (year month : Nat) (b bad : Bytes)
    (hdiff : md5h bad ≠ md5h b) :
    get_cached_file md5h
      (corruptDisk (save_file md5h st symbol interval year month b).1
        (localZipFilename symbol interval year month) bad)
      symbol interval year month = none := by
  unfold get_cached_file corruptDisk save_file
  simp only [alookup_insertLWW_self]
  rw [if_neg]
  rintro ⟨-, h2⟩
  exact hdiff h2.symm

/-- Witness for C4 at a concrete key, contents and hash function. -/
theorem corrupted_cache_read_misses_witness :
    md5ex [7] ≠ md5ex [1, 2] ∧
    get_cached_file md5ex
      (corruptDisk (save_file md5ex cacheEx "ETHBTC" "1m" 2025 1 [1, 2]).1
        (localZipFilename "ETHBTC" "1m" 2025 1) [7])
      "ETHBTC" "1m" 2025 1 = none :=
  ⟨by decide,
   corrupted_cache_read_misses md5ex cacheEx "ETHBTC" "1m" 2025 1 [1, 2] [7] (by decide)⟩

/-- Flags the filesystem operations an atomic temp-file-plus-rename write
discipline would use. -/
def isTempOrRename : FsOp → Bool
  | FsOp.writeTempFile _ _ => true
  | FsOp.renameFile _ _ => true
  | _ => false

/-- C8 counterexample: at a concrete key and content, the trace of filesystem
operations performed by `save_file` contains no temporary-file write and no
rename — the write is a direct `open(local_path, "wb")` write, so the claimed
atomic write discipline is absent. -/
theorem save_file_not_atomic_counterexample :
    ((save_file md5ex cacheEx "ETHBTC" "1m" 2025 1 [1, 2]).2.any isTempOrRename)
      = false := by decide

/-- C8 as amended: `save_file` performs exactly two filesystem operations, in
order — a direct write of the content to the final cache path, then an
overwriting flush of the whole ledger file. No temporary file and no rename
are involved, so an interruption mid-write can leave a partial file; the
ledger is only updated afterwards, and a checksum mismatch on the next read is
a soft miss. -/
theorem save_file_trace (md5h : Bytes → String) (st : CacheState)
    (symbol interval : String) (year month : Nat) (content : Bytes) :
    (save_file md5h st symbol interval year month content).2 =
      [FsOp.writeFile
         (st.cacheDir ++ "/" ++ localZipFilename symbol interval year month) content,
       FsOp.writeLedgerFile (serializeChecksums
         (insertLWW st.checksums (localZipFilename symbol interval year month)
           (md5h content)))] := rfl

/-- C10: a well-formed ZIP container holding zero entries parses to the empty
dataset — exactly like the not-found marker, and unlike an unreadable
container, which raises `ParseError`. -/
theorem empty_archive_parses_empty :
    parse_kline_zip (ZipInput.zip []) = Except.ok [] ∧
    parse_kline_zip ZipInput.notFoundMarker = Except.ok [] ∧
    parse_kline_zip ZipInput.invalid = Except.error ParseError.badZip :=
  ⟨rfl, rfl, rfl⟩

/-- C9: flushing a ledger of distinct well-formed keys and reloading it
reproduces the identical filename-to-checksum mapping, and any line whose
token count differs from two (blank lines have zero tokens) is ignored on
load. -/
theorem ledger_roundtrip (m checksums : List (String × String)) (line : String)
    (hgood : ∀ p ∈ m, goodToken p.1 = true ∧ goodToken p.2 = true)
    (hnd : (m.map Prod.fst).Nodup)
    (hline : (splitTokens line).length ≠ 2) :
    load_checksums (serializeChecksums m) = m ∧
    processLine checksums line = checksums := by
  constructor
  · unfold load_checksums
    have h0 := foldl_processLine_serialize m hgood hnd [] (by intro p _ q hq; cases hq)
    simpa using h0
  · unfold processLine
    rcases hsp : splitTokens line with _ | ⟨t1, _ | ⟨t2, _ | ⟨t3, rest⟩⟩⟩
    · rfl
    · rfl
    · exact absurd (by rw [hsp]; rfl) hline
    · rfl

/-- Witness for C9 on a concrete two-entry ledger and a three-token junk
line. -/
theorem ledger_roundtrip_witness :
    load_checksums (serializeChecksums ledgerEx) = ledgerEx ∧
    processLine ledgerEx "one two three" = ledgerEx :=
  ledger_roundtrip ledgerEx ledgerEx "one two three" (by decide) (by decide) (by decide)

/-- C5: a 404 answer makes the fetch return the `b"404_NOT_FOUND"` marker as a
success after exactly one attempt (no retry, no raised error); the download
path on the marker returns an empty dataset and writes nothing to the cache;
the parser maps the marker to an empty dataset; and the marker is in-band
distinguishable both from every well-formed archive body (the marker string is
not a ZIP container) and from the failure outcome. -/
theorem notfound_marker_flow (env404 : Nat → HttpResult) (body : ZipInput)
    (h404 : env404 0 = HttpResult.response 404 body) :
    fetchWithRetry env404 = (FetchOutcome.ok ZipInput.notFoundMarker, 1) ∧
    download_monthly_klines none (FetchOutcome.ok ZipInput.notFoundMarker) =
      (Except.ok [], none) ∧
    parse_kline_zip ZipInput.notFoundMarker = Except.ok [] ∧
    (∀ entries : List ZipEntry, ZipInput.zip entries ≠ ZipInput.notFoundMarker) ∧
    FetchOutcome.ok ZipInput.notFoundMarker ≠ FetchOutcome.error := by
  refine ⟨?_, rfl, rfl, fun entries => by simp, by simp⟩
  unfold fetchWithRetry fetchLoop
  rw [h404]
  simp [fetchAttempt]

/-- Witness for C5 under the environment answering 404 immediately. -/
theorem notfound_marker_flow_witness :
    fetchWithRetry http404 = (FetchOutcome.ok ZipInput.notFoundMarker, 1) ∧
    download_monthly_klines none (FetchOutcome.ok ZipInput.notFoundMarker) =
      (Except.ok [], none) ∧
    parse_kline_zip ZipInput.notFoundMarker = Except.ok [] ∧
    (∀ entries : List ZipEntry, ZipInput.zip entries ≠ ZipInput.notFoundMarker) ∧
    FetchOutcome.ok ZipInput.notFoundMarker ≠ FetchOutcome.error :=
  notfound_marker_flow http404 ZipInput.invalid rfl

/-- C7 counterexample: on the inverted range from 2025-03 back to 2025-01 the
loader does not reject the configuration — it enumerates zero months (hence
performs no network activity) and returns the empty dataset as a normal,
non-error result; no `ConfigurationError` is raised anywhere. -/
theorem inverted_range_counterexample :
    monthsInRange 2025 3 2025 1 = [] ∧
    load_data_for_period 2025 3 2025 1 envNone = Except.ok [] :=
  ⟨rfl, rfl⟩

/-- C7 as amended: for every range whose end month precedes its start month,
the `while` loop enumerates no months, so no month task and no network
activity happens, and the loader returns the empty dataset (rather than
raising a `ConfigurationError`, which does not exist in the code). -/
theorem inverted_range_no_tasks (sy sm ey em : Nat) (env : MonthEnv)
    (h : monthIndex ey em < monthIndex sy sm) :
    monthsInRange sy sm ey em = [] ∧
    load_data_for_period sy sm ey em env = Except.ok [] := by
  have hz : monthIndex ey em + 1 - monthIndex sy sm = 0 := Nat.sub_eq_zero_of_le h
  have hm : monthsInRange sy sm ey em = [] := by
    unfold monthsInRange
    rw [hz]
    rfl
  refine ⟨hm, ?_⟩
  unfold load_data_for_period
  rw [hm]
  rfl

/-- Witness for C7 as amended, on the inverted range 2025-03..2025-01. -/
theorem inverted_range_no_tasks_witness :
    monthIndex 2025 1 < monthIndex 2025 3 ∧
    (monthsInRange 2025 3 2025 1 = [] ∧
     load_data_for_period 2025 3 2025 1 envNone = Except.ok []) :=
  ⟨by decide, inverted_range_no_tasks 2025 3 2025 1 envNone (by decide)⟩

/-- C6: every pair selected by the resolver ends with the quote asset and
contains none of the banned substrings; the selection is sorted by volume
descending and holds at most `limit` entries; on the spec's snapshot
`resolve("BTC", 2)` returns exactly ETHBTC and SOLBTC (TESTBTC excluded
despite its higher volume); and a volume tie keeps snapshot order (ABTC before
BBTC), the sort being stable. -/
theorem top_pairs_spec (data : List TickerEntry) (quote : String) (limit : Nat) :
    (∀ p ∈ sortAndSelectTop (filterSymbols data quote) limit,
        endsWithB p.1 quote = true ∧ isExcludedSymbol p.1 = false) ∧
    (sortAndSelectTop (filterSymbols data quote) limit).Pairwise volDesc ∧
    (sortAndSelectTop (filterSymbols data quote) limit).length ≤ limit ∧
    (List.insertionSort volDesc (filterSymbols data quote)).Perm
      (filterSymbols data quote) ∧
    get_top_pairs exampleTicker "BTC" 2 = ["ETHBTC", "SOLBTC"] ∧
    get_top_pairs tieTicker "BTC" 3 = ["CBTC", "ABTC", "BBTC"] := by
  refine ⟨?_, ?_, ?_, List.perm_insertionSort volDesc _, by decide, by decide⟩
  · intro p hp
    have hp1 : p ∈ List.insertionSort volDesc (filterSymbols data quote) :=
      (List.take_sublist _ _).subset hp
    have hp2 : p ∈ filterSymbols data quote :=
      (List.perm_insertionSort volDesc _).subset hp1
    rcases List.mem_filterMap.mp hp2 with ⟨item, -, hf⟩
    cases h1 : endsWithB item.symbol quote with
    | false => simp [h1] at hf
    | true =>
      cases h2 : isExcludedSymbol item.symbol with
      | true => simp [h1, h2] at hf
      | false =>
        simp only [h1, h2, Bool.not_true, Bool.false_eq_true, if_false,
          Option.some.injEq] at hf
        rw [← hf]
        exact ⟨h1, h2⟩
  · exact List.Pairwise.sublist (List.take_sublist _ _)
      (List.sorted_insertionSort volDesc (filterSymbols data quote))
  · exact List.length_take_le _ _

/-- C1: the code contradicts the claim (and its own intent). When every one of
the five retry attempts for the middle month fails, tenacity — configured
without `reraise=True` — raises `RetryError`, which the
`except httpx.HTTPError` clause in `download_monthly_klines` does not catch
even though that clause (and its "Error downloading (with retries)" message)
exists precisely to downgrade the failure to an empty month. The month task's
exception makes the `asyncio.TaskGroup` cancel its siblings, and
`load_data_for_period` aborts instead of returning the rows of the two
available months. This theorem evaluates the embedding at the claim's
scenario: the two outer months succeed individually, the middle month's fetch
consumes its whole budget and raises, and the period load surfaces that error. -/
theorem month_failure_aborts
    (httpB : Nat → HttpResult) (hB : ∀ i, fetchAttempt (httpB i) = Except.error ())
    (sy sm ey em : Nat) (a b c : Nat × Nat) (env : MonthEnv)
    (bodyA bodyC : ZipInput) (da dc : List Row)
    (hr : monthsInRange sy sm ey em = [a, b, c])
    (henvA : env a = (none, FetchOutcome.ok bodyA))
    (hA : parse_kline_zip bodyA = Except.ok da)
    (henvB : env b = (none, (fetchWithRetry httpB).1))
    (henvC : env c = (none, FetchOutcome.ok bodyC))
    (hC : parse_kline_zip bodyC = Except.ok dc) :
    (fetchWithRetry httpB).1 = FetchOutcome.error ∧
    monthResult env a = Except.ok da ∧
    monthResult env c = Except.ok dc ∧
    monthResult env b = Except.error MonthError.retryError ∧
    load_data_for_period sy sm ey em env = Except.error MonthError.retryError := by
  have hferr : fetchWithRetry httpB = (FetchOutcome.error, 5) := by
    have h4 := fetchLoop_allFail httpB hB 4 0
    simpa [fetchWithRetry] using h4
  have hmb : monthResult env b = Except.error MonthError.retryError := by
    unfold monthResult
    rw [henvB, hferr]
    rfl
  have hma : monthResult env a = Except.ok da := by
    unfold monthResult
    rw [henvA]
    exact download_ok_of_parse bodyA da hA
  have hmc : monthResult env c = Except.ok dc := by
    unfold monthResult
    rw [henvC]
    exact download_ok_of_parse bodyC dc hC
  refine ⟨by rw [hferr], hma, hmc, hmb, ?_⟩
  have hcol : collectMonths env [a, b, c] = Except.error MonthError.retryError := by
    simp [collectMonths, hma, hmb]
  unfold load_data_for_period
  rw [hr, hcol]

/-- Witness for C1's failing input: January and March deliver one row each
(open_time 5 and 9), February's five attempts are all transport errors; the
loader aborts with the uncaught `RetryError` instead of returning the two
available rows. -/
theorem month_failure_aborts_witness :
    (fetchWithRetry httpFail).1 = FetchOutcome.error ∧
    monthResult envC1 (2025, 1) = Except.ok [rowT 5] ∧
    monthResult envC1 (2025, 3) = Except.ok [rowT 9] ∧
    monthResult envC1 (2025, 2) = Except.error MonthError.retryError ∧
    load_data_for_period 2025 1 2025 3 envC1 = Except.error MonthError.retryError :=
  month_failure_aborts httpFail (fun _ => rfl) 2025 1 2025 3
    (2025, 1) (2025, 2) (2025, 3) envC1
    (archiveOf [rowT 5]) (archiveOf [rowT 9]) [rowT 5] [rowT 9]
    (by decide) rfl rfl rfl rfl rfl

/-- C2 counterexample: with January's archive holding open_time 5 and
February's holding open_time 3, the loader assembles the rows in chronological
key order, producing a dataset that is not strictly ascending by open_time —
the code concatenates month results without any cross-month ordering check, so
the claim's "for every assignment of per-month parse results" fails. -/
theorem assembled_not_ascending_counterexample :
    load_data_for_period 2025 1 2025 2 envC2 = Except.ok [rowT 5, rowT 3] ∧
    ¬ StrictAscOpenTime [rowT 5, rowT 3] :=
  ⟨rfl, by decide⟩

/-- C2 as amended: whenever every month task completes without raising
(`collectMonths` returns `ok`; a fetch-exhausted or parse-failed month would
instead abort the TaskGroup, see `MonthError`), the loader assembles the
per-month datasets in chronological key order (the task-creation order), and
if each month's dataset is strictly ascending and every row of a month
precedes every row of each later month, the assembled dataset is strictly
ascending by open_time. -/
theorem assembled_in_key_order_ascending
    (sy sm ey em : Nat) (env : MonthEnv) (dfs : List (List Row))
    (hcollect : collectMonths env (monthsInRange sy sm ey em) = Except.ok dfs)
    (hEach : ∀ d ∈ dfs, StrictAscOpenTime d)
    (hSep : dfs.Pairwise fun d e => ∀ r ∈ d, ∀ s ∈ e, openTime r < openTime s) :
    load_data_for_period sy sm ey em env =
      Except.ok ((dfs.filter fun d => !d.isEmpty).flatten) ∧
    StrictAscOpenTime ((dfs.filter fun d => !d.isEmpty).flatten) := by
  constructor
  · unfold load_data_for_period
    rw [hcollect]
  · apply List.pairwise_flatten.mpr
    constructor
    · intro l hl
      exact hEach l ((List.filter_sublist dfs).subset hl)
    · exact List.Pairwise.sublist (List.filter_sublist dfs) hSep

/-- Witness for C2 as amended on two well-separated cached months. -/
theorem assembled_in_key_order_ascending_witness :
    load_data_for_period 2025 1 2025 2 envAsc =
      Except.ok (([[rowT 1, rowT 2], [rowT 10]].filter fun d => !d.isEmpty).flatten) ∧
    StrictAscOpenTime (([[rowT 1, rowT 2], [rowT 10]].filter fun d => !d.isEmpty).flatten) :=
  assembled_in_key_order_ascending 2025 1 2025 2 envAsc [[rowT 1, rowT 2], [rowT 10]]
    rfl (by decide) (by decide)

end BtcBacktest
